import Mathlib

/-!
Verification of the real-time collaborative synchronization engine:
operational-transform functions, document authority, synchronization
gateway and presence tracker, embedded from the TypeScript sources
(`real-time-collaboration-guide.md` service code and
`backend/src/socket/socketHandler.ts`).

Content is modelled as `List Char` (JavaScript strings);
positions, lengths and timestamps as `Int` (JavaScript numbers,
which may go negative under subtraction).
-/

/-- `OperationType` from `backend/src/types/common.ts`:
`'insert' | 'delete' | 'retain' | 'format'`. -/
inductive OperationType where
  | insert
  | delete
  | retain
  | format
deriving DecidableEq, Repr

/-- The `Operation` value used by the transform code: `id`, `type`,
`position`, `content` (insert payload), `length` (delete extent),
`userId` and `timestamp` (used by `areConcurrent`), and the
`entityType`/`entityId` fields read by the gateway helpers. -/
structure Operation where
  id : String
  type : OperationType
  position : Int
  content : List Char
  length : Int
  userId : String
  timestamp : Int
  entityType : String
  entityId : String
deriving DecidableEq, Repr

/-- Normalize a JavaScript `String.prototype.slice` index: negative
indices count from the end (clamped at 0), nonnegative ones are clamped
at the length. -/
def jsIdx (len : Nat) (i : Int) : Nat :=
  if i < 0 then ((len : Int) + i).toNat else min i.toNat len

/-- JavaScript `s.slice(start, stop)` on a list of characters. -/
def jsSlice (s : List Char) (start stop : Int) : List Char :=
  (s.take (jsIdx s.length stop)).drop (jsIdx s.length start)

/-- JavaScript `s.slice(start)` (one-argument form). -/
def jsSliceFrom (s : List Char) (start : Int) : List Char :=
  s.drop (jsIdx s.length start)

namespace OperationalTransformService

/-- `applyToContent` from `OperationalTransformService`: insert splices
`op.content` at `position`; delete removes via
`slice(0, position) + slice(position + length)`; other kinds return the
content unchanged. -/
def applyToContent (content : List Char) (op : Operation) : List Char :=
  match op.type with
  | .insert =>
      jsSlice content 0 op.position ++ op.content ++ jsSliceFrom content op.position
  | .delete =>
      jsSlice content 0 op.position ++ jsSliceFrom content (op.position + op.length)
  | _ => content

/-- `transformInsertInsert`: keep `op1` when `op1.position <= op2.position`,
else shift by the length of `op2.content`. -/
def transformInsertInsert (op1 op2 : Operation) : Operation :=
  if op1.position ≤ op2.position then op1
  else { op1 with position := op1.position + (op2.content.length : Int) }

/-- `transformInsertDelete`: keep when at or before the delete, shift left
past it, otherwise clamp to the start of the delete. -/
def transformInsertDelete (op1 op2 : Operation) : Operation :=
  if op1.position ≤ op2.position then op1
  else if op1.position ≥ op2.position + op2.length then
    { op1 with position := op1.position - op2.length }
  else
    { op1 with position := op2.position }

/-- `transformDeleteInsert`: keep when the delete ends at or before the
insert, shift right when it starts at or after the insert, otherwise set
`length := op1.position - op2.position`. -/
def transformDeleteInsert (op1 op2 : Operation) : Operation :=
  if op1.position + op1.length ≤ op2.position then op1
  else if op1.position ≥ op2.position then
    { op1 with position := op1.position + (op2.content.length : Int) }
  else
    { op1 with length := op1.position - op2.position }

/-- `transformDeleteDelete`: disjoint deletes keep or shift; overlapping
deletes subtract the overlap (containment gives length `op1.length -
op2.length` or `0`), with no position adjustment. -/
def transformDeleteDelete (op1 op2 : Operation) : Operation :=
  if op1.position + op1.length ≤ op2.position then op1
  else if op1.position ≥ op2.position + op2.length then
    { op1 with position := op1.position - op2.length }
  else
    let start1 := op1.position
    let end1 := op1.position + op1.length
    let start2 := op2.position
    let end2 := op2.position + op2.length
    if start1 ≤ start2 ∧ end1 ≥ end2 then
      { op1 with length := op1.length - op2.length }
    else if start1 ≥ start2 ∧ end1 ≤ end2 then
      { op1 with length := 0 }
    else
      { op1 with length := op1.length - (min end1 end2 - max start1 start2) }

/-- `transform`: dispatch on the two operation kinds, defaulting to `op1`. -/
def transform (op1 op2 : Operation) : Operation :=
  if op1.type = .insert ∧ op2.type = .insert then transformInsertInsert op1 op2
  else if op1.type = .insert ∧ op2.type = .delete then transformInsertDelete op1 op2
  else if op1.type = .delete ∧ op2.type = .insert then transformDeleteInsert op1 op2
  else if op1.type = .delete ∧ op2.type = .delete then transformDeleteDelete op1 op2
  else op1

/-- `areConcurrent`: different users and timestamps within a one-second
window. -/
def areConcurrent (op1 op2 : Operation) : Bool :=
  op1.userId ≠ op2.userId ∧ |op1.timestamp - op2.timestamp| < 1000

/-- `DocumentState`: content, version, and the applied operation history. -/
structure DocumentState where
  content : List Char
  version : Nat
  operations : List Operation
deriving DecidableEq, Repr

/-- `initializeDocument`: content as given, version 0, empty history. -/
def initializeDocument (content : List Char) : DocumentState :=
  { content := content, version := 0, operations := [] }

/-- `transformOperation`: fold the pairwise `transform` over every
operation of the history that `areConcurrent` classifies as concurrent
with the original submission. -/
def transformOperation (operation : Operation) (docState : DocumentState) :
    Operation :=
  docState.operations.foldl
    (fun transformedOp concurrentOp =>
      if areConcurrent operation concurrentOp then
        transform transformedOp concurrentOp
      else transformedOp)
    operation

/-- The `TransformResult` returned by `applyOperation`. -/
structure TransformResult where
  operation : Operation
  content : List Char
  version : Nat
deriving DecidableEq, Repr

/-- `applyOperation`: transform the submission against the history,
update `content`, increment `version`, push the transformed operation,
then persist. The in-memory state is mutated before `persistOperation`
runs, so when persistence throws (`persistOk = false`) the caller sees
the error (`none`) while the state keeps the mutation. -/
def applyOperation (persistOk : Bool) (docState : DocumentState)
    (operation : Operation) : DocumentState × Option TransformResult :=
  let transformedOp := transformOperation operation docState
  let newContent := applyToContent docState.content transformedOp
  let docState' : DocumentState :=
    { content := newContent
      version := docState.version + 1
      operations := docState.operations ++ [transformedOp] }
  if persistOk then
    (docState',
      some { operation := transformedOp, content := newContent,
             version := docState'.version })
  else
    (docState', none)

/-- A sequence of successful `applyOperation` calls, threading the state. -/
def applyAll (docState : DocumentState) (ops : List Operation) : DocumentState :=
  ops.foldl (fun d op => (applyOperation true d op).1) docState

end OperationalTransformService

namespace SocketHandler

/-- `validateOperation` from `socketHandler.ts`: requires a non-empty id,
a nonnegative position, a positive length for deletes, and non-empty
content for inserts. -/
def validateOperation (operation : Operation) : Bool :=
  if operation.id = "" then false
  else if operation.position < 0 then false
  else if operation.type = .delete ∧ operation.length ≤ 0 then false
  else if operation.type = .insert ∧ operation.content = [] then false
  else true

/-- `transformAgainstOperation` from `socketHandler.ts`: the gateway's
pairwise transform — insert/insert and delete/insert keep or shift right
by the inserted length, insert/delete keeps, shifts left, or clamps to
the delete start; every other pair passes through. -/
def transformAgainstOperation (operation1 operation2 : Operation) : Operation :=
  if operation1.type = .insert ∧ operation2.type = .insert then
    if operation1.position ≤ operation2.position then operation1
    else { operation1 with
            position := operation1.position + (operation2.content.length : Int) }
  else if operation1.type = .delete ∧ operation2.type = .insert then
    if operation1.position ≤ operation2.position then operation1
    else { operation1 with
            position := operation1.position + (operation2.content.length : Int) }
  else if operation1.type = .insert ∧ operation2.type = .delete then
    if operation1.position ≤ operation2.position then operation1
    else if operation1.position ≥ operation2.position + operation2.length then
      { operation1 with position := operation1.position - operation2.length }
    else
      { operation1 with position := operation2.position }
  else operation1

/-- `getOperationsBetweenVersions` from `socketHandler.ts`: the lookup is
left unimplemented and always returns the empty list. -/
def getOperationsBetweenVersions (entityType entityId : String)
    (fromVersion toVersion : Nat) : List Operation :=
  []

/-- `transformOperation` from `socketHandler.ts`: fold
`transformAgainstOperation` over the operations between the two versions. -/
def transformOperation (operation : Operation) (fromVersion toVersion : Nat) :
    Operation :=
  (getOperationsBetweenVersions operation.entityType operation.entityId
      fromVersion toVersion).foldl transformAgainstOperation operation

/-- Gateway-side per-entity state: the Redis-cached version counter and
the `operation` rows created in the database (operation paired with its
`sequenceNumber`). -/
structure GatewayState where
  version : Nat
  storedOps : List (Operation × Nat)
deriving DecidableEq, Repr

/-- `getCurrentVersion`: the cached version, 0 when nothing is cached
(the initial state stores 0). -/
def getCurrentVersion (st : GatewayState) : Nat :=
  st.version

/-- Messages emitted by the `operation:send` handler: an ack or error to
the submitting socket, or a broadcast to the entity room. -/
inductive Emit where
  | ackToSender (operationId : String) (version : Nat)
  | errorToSender (operationId : String) (error : String)
  | broadcastToRoom (room : String) (operation : Operation) (version : Nat)
deriving DecidableEq, Repr

/-- `applyOperation` from `socketHandler.ts`: bump the cached version,
then create the database row with `sequenceNumber = currentVersion + 1`.
The version write precedes the row creation, so when the database write
throws (`persistOk = false`) the version is already incremented while no
row is stored, and the error propagates to the caller (`false`). -/
def applyOperation (persistOk : Bool) (st : GatewayState)
    (operation : Operation) : GatewayState × Bool :=
  let currentVersion := getCurrentVersion st
  if persistOk then
    ({ version := currentVersion + 1
       storedOps := st.storedOps ++ [(operation, currentVersion + 1)] }, true)
  else
    ({ st with version := currentVersion + 1 }, false)

/-- The `operation:send` handler: empty entity fields are ignored; an
invalid operation gets an error; on a version mismatch the operation is
transformed (against the empty history) and applied; otherwise it is
applied directly; both success paths broadcast to the room and ack the
sender, and a throwing apply is caught and reported to the sender only. -/
def operationSend (persistOk : Bool) (st : GatewayState)
    (entityType entityId : String) (operation : Operation) (version : Nat) :
    GatewayState × List Emit :=
  if entityType = "" ∨ entityId = "" then (st, [])
  else if validateOperation operation = false then
    (st, [.errorToSender operation.id "Invalid operation"])
  else
    let currentVersion := getCurrentVersion st
    if version ≠ currentVersion then
      let transformedOperation := transformOperation operation version currentVersion
      let (st', ok) := applyOperation persistOk st transformedOperation
      if ok then
        (st',
          [.broadcastToRoom (entityType ++ ":" ++ entityId) transformedOperation
              (currentVersion + 1),
            .ackToSender operation.id (currentVersion + 1)])
      else
        (st', [.errorToSender operation.id "Failed to process operation"])
    else
      let (st', ok) := applyOperation persistOk st operation
      if ok then
        (st',
          [.broadcastToRoom (entityType ++ ":" ++ entityId) operation
              (version + 1),
            .ackToSender operation.id (version + 1)])
      else
        (st', [.errorToSender operation.id "Failed to process operation"])

end SocketHandler

namespace PresenceService

/-- A `Presence` entry as built by `updatePresence`. -/
structure Presence where
  userId : String
  entityType : String
  entityId : String
  status : String
  lastSeen : Int
deriving DecidableEq, Repr

/-- The map key `userId:entityType:entityId`. -/
def presenceKey (userId entityType entityId : String) : String :=
  userId ++ ":" ++ entityType ++ ":" ++ entityId

/-- Broadcast events emitted to the entity room
`entityType:entityId`. -/
inductive PresenceEvent where
  | update (room : String) (presence : Presence)
  | remove (room : String) (userId entityType entityId : String)
deriving DecidableEq, Repr

/-- The in-memory `presences` map, as an association list keyed by the
presence key (a `Map` holds at most one entry per key). -/
abbrev PresenceMap := List (String × Presence)

/-- `Map.delete` on the association-list representation. -/
def mapDelete (m : PresenceMap) (key : String) : PresenceMap :=
  m.filter (fun kv => kv.1 ≠ key)

/-- `Map.set` on the association-list representation. -/
def mapSet (m : PresenceMap) (key : String) (p : Presence) : PresenceMap :=
  mapDelete m key ++ [(key, p)]

/-- `broadcastPresenceRemoval`: emit `presence:remove` to the room
`entityType:entityId`. -/
def broadcastPresenceRemoval (userId entityType entityId : String) :
    PresenceEvent :=
  .remove (entityType ++ ":" ++ entityId) userId entityType entityId

/-- `removePresence`: drop the entry from the map and broadcast the
removal to the entity room. -/
def removePresence (m : PresenceMap) (userId entityType entityId : String) :
    PresenceMap × List PresenceEvent :=
  (mapDelete m (presenceKey userId entityType entityId),
    [broadcastPresenceRemoval userId entityType entityId])

/-- `updatePresence`: overwrite the keyed entry with a fresh `lastSeen`
and broadcast the update to the entity room. -/
def updatePresence (m : PresenceMap) (userId entityType entityId status : String)
    (now : Int) : PresenceMap × List PresenceEvent :=
  let key := presenceKey userId entityType entityId
  let presence : Presence :=
    { userId := userId, entityType := entityType, entityId := entityId,
      status := status, lastSeen := now }
  (mapSet m key presence,
    [.update (entityType ++ ":" ++ entityId) presence])

/-- The inactivity threshold: 5 minutes in milliseconds. -/
def inactiveThreshold : Int := 5 * 60 * 1000

/-- One iteration of the `cleanupInactivePresences` loop: an entry whose
`lastSeen` is more than `inactiveThreshold` before `now` is deleted from
the map and `removePresence` is invoked for it; other entries are
untouched. -/
def cleanupStep (now : Int) (acc : PresenceMap × List PresenceEvent)
    (kv : String × Presence) : PresenceMap × List PresenceEvent :=
  if now - kv.2.lastSeen > inactiveThreshold then
    let m1 := mapDelete acc.1 kv.1
    let (m2, evs) := removePresence m1 kv.2.userId kv.2.entityType kv.2.entityId
    (m2, acc.2 ++ evs)
  else acc

/-- `cleanupInactivePresences`: walk the entries, deleting every expired
one and emitting the same removal broadcast as an explicit leave. -/
def cleanupInactivePresences (m : PresenceMap) (now : Int) :
    PresenceMap × List PresenceEvent :=
  m.foldl (cleanupStep now) (m, [])

end PresenceService

/-! ### Content splicing in terms of `List.take`/`List.drop`

`insertAt`/`deleteAt` are the nonnegative-index normal forms of
`applyToContent`; the bridge lemmas below connect them. -/

/-- Splice `s` into `c` at position `p`. -/
def insertAt {α : Type} (p : Nat) (s c : List α) : List α :=
  c.take p ++ s ++ c.drop p

/-- Remove `l` elements of `c` starting at position `p`. -/
def deleteAt {α : Type} (p l : Nat) (c : List α) : List α :=
  c.take p ++ c.drop (p + l)

/-- Build an insert operation (concrete-input fixture). -/
def mkInsert (opId : String) (p : Int) (s : List Char) (u : String)
    (ts : Int) : Operation :=
  { id := opId, type := .insert, position := p, content := s, length := 0,
    userId := u, timestamp := ts, entityType := "task", entityId := "1" }

/-- Build a delete operation (concrete-input fixture). -/
def mkDelete (opId : String) (p l : Int) (u : String) (ts : Int) : Operation :=
  { id := opId, type := .delete, position := p, content := [], length := l,
    userId := u, timestamp := ts, entityType := "task", entityId := "1" }

/-- An operation's position is valid in the given base content: inserts
point into the content, deletes cover a positive in-range span. -/
def validOn (base : List Char) (op : Operation) : Bool :=
  match op.type with
  | .insert =>
      decide (0 ≤ op.position ∧ op.position ≤ (base.length : Int))
  | .delete =>
      decide (0 ≤ op.position ∧ 0 < op.length ∧
        op.position + op.length ≤ (base.length : Int))
  | _ => true

/-- The conflict configurations on which the implemented transform does
converge: inserts at distinct positions; an insert not strictly inside
the other operation's deleted span; deletes whose spans are disjoint or
nested. -/
def convergentPair (x y : Operation) : Bool :=
  match x.type, y.type with
  | .insert, .insert => decide (x.position ≠ y.position)
  | .insert, .delete =>
      decide (x.position ≤ y.position ∨ y.position + y.length ≤ x.position)
  | .delete, .insert =>
      decide (y.position ≤ x.position ∨ x.position + x.length ≤ y.position)
  | .delete, .delete =>
      decide (x.position + x.length ≤ y.position ∨
        y.position + y.length ≤ x.position ∨
        (x.position ≤ y.position ∧
          y.position + y.length ≤ x.position + x.length) ∨
        (y.position ≤ x.position ∧
          x.position + x.length ≤ y.position + y.length))
  | _, _ => false

theorem take_min_length {α : Type} (c : List α) (n : Nat) :
    c.take (min n c.length) = c.take n := by
  rcases le_total n c.length with h | h
  · rw [min_eq_left h]
  · rw [min_eq_right h, List.take_length, List.take_of_length_le h]

theorem drop_min_length {α : Type} (c : List α) (n : Nat) :
    c.drop (min n c.length) = c.drop n := by
  rcases le_total n c.length with h | h
  · rw [min_eq_left h]
  · rw [min_eq_right h, List.drop_length, List.drop_of_length_le h]

theorem jsSlice_zero (c : List Char) (p : Int) (hp : 0 ≤ p) :
    jsSlice c 0 p = c.take p.toNat := by
  unfold jsSlice jsIdx
  rw [if_neg (by omega), if_neg (by omega)]
  simp only [Int.toNat_zero, Nat.zero_min, List.drop_zero]
  exact take_min_length c p.toNat

theorem jsSliceFrom_nonneg (c : List Char) (p : Int) (hp : 0 ≤ p) :
    jsSliceFrom c p = c.drop p.toNat := by
  unfold jsSliceFrom jsIdx
  rw [if_neg (by omega)]
  exact drop_min_length c p.toNat

theorem applyToContent_insert (c : List Char) (op : Operation)
    (ht : op.type = .insert) (hp : 0 ≤ op.position) :
    OperationalTransformService.applyToContent c op
      = insertAt op.position.toNat op.content c := by
  unfold OperationalTransformService.applyToContent insertAt
  rw [ht]
  rw [jsSlice_zero c op.position hp, jsSliceFrom_nonneg c op.position hp]

theorem applyToContent_delete (c : List Char) (op : Operation)
    (ht : op.type = .delete) (hp : 0 ≤ op.position) (hl : 0 ≤ op.length) :
    OperationalTransformService.applyToContent c op
      = deleteAt op.position.toNat op.length.toNat c := by
  unfold OperationalTransformService.applyToContent deleteAt
  rw [ht]
  rw [jsSlice_zero c op.position hp,
    jsSliceFrom_nonneg c (op.position + op.length) (by omega)]
  rw [Int.toNat_add hp hl]

/-! ### Segment lemmas for splicing -/

theorem insertAt_seg {α : Type} {x y s : List α} {n : Nat} (h : x.length = n) :
    insertAt n s (x ++ y) = x ++ (s ++ y) := by
  unfold insertAt
  rw [List.take_left' h, List.drop_left' h, List.append_assoc]

theorem deleteAt_seg {α : Type} {x m y : List α} {p l : Nat}
    (hx : x.length = p) (hm : m.length = l) :
    deleteAt p l (x ++ (m ++ y)) = x ++ y := by
  unfold deleteAt
  rw [List.take_left' hx]
  rw [show x ++ (m ++ y) = (x ++ m) ++ y from (List.append_assoc x m y).symm]
  rw [List.drop_left' (by simp [hx, hm])]

theorem deleteAt_zero {α : Type} (p : Nat) (c : List α) :
    deleteAt p 0 c = c := by
  unfold deleteAt
  rw [Nat.add_zero, List.take_append_drop]

theorem drop_decompose {α : Type} (a b : Nat) (c : List α)
    (hab : a ≤ b) (hb : b ≤ c.length) :
    c.drop a = (c.take b).drop a ++ c.drop b := by
  conv_lhs => rw [← List.take_append_drop b c]
  rw [List.drop_append_eq_append_drop]
  have h0 : a - (c.take b).length = 0 := by
    simp only [List.length_take]
    omega
  rw [h0, List.drop_zero]


theorem exists_two_split {α : Type} (c : List α) (a : Nat) (ha : a ≤ c.length) :
    ∃ x y : List α, c = x ++ y ∧ x.length = a := by
  refine ⟨c.take a, c.drop a, (List.take_append_drop a c).symm, ?_⟩
  simp only [List.length_take]
  omega

theorem exists_three_split {α : Type} (c : List α) (a b : Nat)
    (hab : a ≤ b) (hb : b ≤ c.length) :
    ∃ t u v : List α, c = t ++ (u ++ v) ∧ t.length = a ∧ u.length = b - a := by
  refine ⟨c.take a, (c.take b).drop a, c.drop b, ?_, ?_, ?_⟩
  · conv_lhs => rw [← List.take_append_drop a c]
    rw [drop_decompose a b c hab hb]
  · simp only [List.length_take]
    omega
  · simp only [List.length_drop, List.length_take]
    omega

/-! ### Commutation lemmas: two compatible edits may be applied in
either order once the second is repositioned. -/

theorem insertAt_insertAt_comm {α : Type} (c s1 s2 : List α) (p1 p2 : Nat)
    (h12 : p1 ≤ p2) (h2 : p2 ≤ c.length) :
    insertAt (p2 + s1.length) s2 (insertAt p1 s1 c)
      = insertAt p1 s1 (insertAt p2 s2 c) := by
  obtain ⟨t, u, v, rfl, lt, lu⟩ := exists_three_split c p1 p2 h12 h2
  rw [insertAt_seg (x := t) lt]
  rw [show t ++ (s1 ++ (u ++ v)) = (t ++ (s1 ++ u)) ++ v by
    simp [List.append_assoc]]
  rw [insertAt_seg (x := t ++ (s1 ++ u))
    (by simp only [List.length_append]; omega)]
  rw [show t ++ (u ++ v) = (t ++ u) ++ v from (List.append_assoc t u v).symm]
  rw [insertAt_seg (x := t ++ u) (by simp only [List.length_append]; omega)]
  rw [show (t ++ u) ++ (s2 ++ v) = t ++ (u ++ (s2 ++ v)) from
    List.append_assoc t u (s2 ++ v)]
  rw [insertAt_seg (x := t) lt]
  simp [List.append_assoc]

theorem deleteAt_insertAt_low {α : Type} (c s : List α) (i d l : Nat)
    (hid : i ≤ d) (hdl : d + l ≤ c.length) :
    deleteAt (d + s.length) l (insertAt i s c)
      = insertAt i s (deleteAt d l c) := by
  obtain ⟨t0, m, v, rfl, lt0, lm0⟩ :=
    exists_three_split c d (d + l) (by omega) hdl
  have lm : m.length = l := by omega
  obtain ⟨t, u, rfl, lt⟩ := exists_two_split t0 i (by omega)
  have lu : u.length = d - i := by
    simp only [List.length_append] at lt0
    omega
  rw [show (t ++ u) ++ (m ++ v) = t ++ (u ++ (m ++ v)) from
    List.append_assoc t u (m ++ v)]
  rw [insertAt_seg (x := t) lt]
  rw [show t ++ (s ++ (u ++ (m ++ v))) = (t ++ (s ++ u)) ++ (m ++ v) by
    simp [List.append_assoc]]
  rw [deleteAt_seg (x := t ++ (s ++ u))
    (by simp only [List.length_append]; omega) lm]
  rw [show t ++ (u ++ (m ++ v)) = (t ++ u) ++ (m ++ v) from
    (List.append_assoc t u (m ++ v)).symm]
  rw [deleteAt_seg (x := t ++ u)
    (by simp only [List.length_append]; omega) lm]
  rw [show (t ++ u) ++ v = t ++ (u ++ v) from List.append_assoc t u v]
  rw [insertAt_seg (x := t) lt]
  simp [List.append_assoc]

theorem deleteAt_insertAt_high {α : Type} (c s : List α) (i d l : Nat)
    (hdl : d + l ≤ i) (hi : i ≤ c.length) :
    deleteAt d l (insertAt i s c)
      = insertAt (i - l) s (deleteAt d l c) := by
  obtain ⟨t0, u, v, rfl, lt0, lu⟩ := exists_three_split c (d + l) i hdl hi
  obtain ⟨t, m, rfl, lt⟩ := exists_two_split t0 d (by omega)
  have lm : m.length = l := by
    simp only [List.length_append] at lt0
    omega
  rw [show (t ++ m) ++ (u ++ v) = (t ++ (m ++ u)) ++ v by
    simp [List.append_assoc]]
  rw [insertAt_seg (x := t ++ (m ++ u))
    (by simp only [List.length_append]; omega)]
  rw [show (t ++ (m ++ u)) ++ (s ++ v) = t ++ (m ++ (u ++ (s ++ v))) by
    simp [List.append_assoc]]
  rw [deleteAt_seg (x := t) lt lm]
  rw [show (t ++ (m ++ u)) ++ v = t ++ (m ++ (u ++ v)) by
    simp [List.append_assoc]]
  rw [deleteAt_seg (x := t) lt lm]
  rw [show t ++ (u ++ v) = (t ++ u) ++ v from (List.append_assoc t u v).symm]
  rw [insertAt_seg (x := t ++ u) (by simp only [List.length_append]; omega)]
  simp [List.append_assoc]

theorem deleteAt_deleteAt_disjoint {α : Type} (c : List α) (sA lA sB lB : Nat)
    (h1 : sA + lA ≤ sB) (h2 : sB + lB ≤ c.length) :
    deleteAt (sB - lA) lB (deleteAt sA lA c)
      = deleteAt sA lA (deleteAt sB lB c) := by
  obtain ⟨t0, mB, v, rfl, lt0, lmB0⟩ :=
    exists_three_split c sB (sB + lB) (by omega) h2
  have lmB : mB.length = lB := by omega
  obtain ⟨t, mA, u, rfl, lt, lmA0⟩ :=
    exists_three_split t0 sA (sA + lA) (by omega) (by omega)
  have lmA : mA.length = lA := by omega
  have lu : u.length = sB - sA - lA := by
    simp only [List.length_append] at lt0
    omega
  rw [show (t ++ (mA ++ u)) ++ (mB ++ v) = t ++ (mA ++ (u ++ (mB ++ v))) by
    simp [List.append_assoc]]
  rw [deleteAt_seg (x := t) lt lmA]
  rw [show t ++ (u ++ (mB ++ v)) = (t ++ u) ++ (mB ++ v) from
    (List.append_assoc t u (mB ++ v)).symm]
  rw [deleteAt_seg (x := t ++ u)
    (by simp only [List.length_append]; omega) lmB]
  rw [show t ++ (mA ++ (u ++ (mB ++ v))) = (t ++ (mA ++ u)) ++ (mB ++ v) by
    simp [List.append_assoc]]
  rw [deleteAt_seg (x := t ++ (mA ++ u))
    (by simp only [List.length_append]; omega) lmB]
  rw [show (t ++ (mA ++ u)) ++ v = t ++ (mA ++ (u ++ v)) by
    simp [List.append_assoc]]
  rw [deleteAt_seg (x := t) lt lmA]
  simp [List.append_assoc]

theorem deleteAt_deleteAt_nested {α : Type} (c : List α) (sA lA sB lB : Nat)
    (hs : sA ≤ sB) (he : sB + lB ≤ sA + lA) (hc : sA + lA ≤ c.length) :
    deleteAt sA (lA - lB) (deleteAt sB lB c) = deleteAt sA lA c := by
  obtain ⟨t0, w, v, rfl, lt0, lw0⟩ :=
    exists_three_split c (sB + lB) (sA + lA) he hc
  have lw : w.length = sA + lA - (sB + lB) := by omega
  obtain ⟨t1, mB, rfl, lt1⟩ := exists_two_split t0 sB (by omega)
  have lmB : mB.length = lB := by
    simp only [List.length_append] at lt0
    omega
  obtain ⟨t, u, rfl, lt⟩ := exists_two_split t1 sA (by omega)
  have lu : u.length = sB - sA := by
    simp only [List.length_append] at lt1
    omega
  rw [show ((t ++ u) ++ mB) ++ (w ++ v) = (t ++ u) ++ (mB ++ (w ++ v)) by
    simp [List.append_assoc]]
  rw [deleteAt_seg (x := t ++ u)
    (by simp only [List.length_append]; omega) lmB]
  rw [show (t ++ u) ++ (w ++ v) = t ++ ((u ++ w) ++ v) by
    simp [List.append_assoc]]
  rw [deleteAt_seg (x := t) (m := u ++ w) lt
    (by simp only [List.length_append]; omega)]
  rw [show (t ++ u) ++ (mB ++ (w ++ v)) = t ++ ((u ++ (mB ++ w)) ++ v) by
    simp [List.append_assoc]]
  rw [deleteAt_seg (x := t) (m := u ++ (mB ++ w)) lt
    (by simp only [List.length_append]; omega)]

/-! ### Claim theorems -/

/-- C10: the gateway's `transformOperation` returns its input unchanged
for every operation and every version pair, because
`getOperationsBetweenVersions` always returns the empty list; hence on a
version mismatch the submitted operation is applied and broadcast
verbatim, without being transformed against any intervening operation. -/
theorem C10_transform_identity :
    (∀ (op : Operation) (fromVersion toVersion : Nat),
      SocketHandler.transformOperation op fromVersion toVersion = op) ∧
    (∀ (st : SocketHandler.GatewayState) (ety eid : String)
        (op : Operation) (v : Nat),
      ety ≠ "" → eid ≠ "" → SocketHandler.validateOperation op = true →
      v ≠ st.version →
      (SocketHandler.operationSend true st ety eid op v).1.storedOps
          = st.storedOps ++ [(op, st.version + 1)] ∧
      (SocketHandler.operationSend true st ety eid op v).2
          = [.broadcastToRoom (ety ++ ":" ++ eid) op (st.version + 1),
             .ackToSender op.id (st.version + 1)]) := by
  constructor
  · intro op fromVersion toVersion
    rfl
  · intro st ety eid op v h1 h2 h3 h4
    simp [SocketHandler.operationSend, SocketHandler.getCurrentVersion,
      SocketHandler.applyOperation, SocketHandler.transformOperation,
      SocketHandler.getOperationsBetweenVersions, h1, h2, h3, h4]

/-- Witness for C10's second conjunct at a concrete mismatched
submission. -/
theorem C10_transform_identity_witness :
    (SocketHandler.operationSend true ⟨0, []⟩ "task" "1"
        (mkInsert "w10" 0 "a".toList "u1" 0) 5).2
      = [.broadcastToRoom "task:1" (mkInsert "w10" 0 "a".toList "u1" 0) 1,
         .ackToSender "w10" 1] :=
  (C10_transform_identity.2 ⟨0, []⟩ "task" "1"
    (mkInsert "w10" 0 "a".toList "u1" 0) 5
    (by decide) (by decide) (by decide) (by decide)).2

/-- Run of `applyAll`: each successful `applyOperation` adds exactly one
to the version and appends exactly one operation. -/
theorem applyAll_stats (d : OperationalTransformService.DocumentState)
    (ops : List Operation) :
    (OperationalTransformService.applyAll d ops).version
        = d.version + ops.length ∧
    (OperationalTransformService.applyAll d ops).operations.length
        = d.operations.length + ops.length := by
  induction ops generalizing d with
  | nil => simp [OperationalTransformService.applyAll]
  | cons op rest ih =>
      have h := ih ((OperationalTransformService.applyOperation true d op).1)
      simp only [OperationalTransformService.applyAll, List.foldl_cons] at h ⊢
      simp only [OperationalTransformService.applyOperation, if_true,
        List.length_append, List.length_cons, List.length_nil] at h ⊢
      omega

/-- C8: a document state reached from `initializeDocument` by N
successful `applyOperation` calls has `version = N` and an applied-
operations history of length N. -/
theorem C8_version_equals_applied_count (content : List Char)
    (ops : List Operation) :
    (OperationalTransformService.applyAll
        (OperationalTransformService.initializeDocument content) ops).version
      = ops.length ∧
    (OperationalTransformService.applyAll
        (OperationalTransformService.initializeDocument content)
        ops).operations.length
      = ops.length := by
  have h := applyAll_stats
    (OperationalTransformService.initializeDocument content) ops
  simpa [OperationalTransformService.initializeDocument] using h

/-- C5 counterexample: a submission whose clientVersion (5) is strictly
greater than the authority's current version (0) is NOT rejected with a
VersionMismatch error — the handler applies it (version becomes 1, a row
is stored) and emits a broadcast and an ack, no error. -/
theorem C5_counterexample_ahead_version_applied :
    (SocketHandler.operationSend true ⟨0, []⟩ "task" "1"
        (mkInsert "c5" 0 "a".toList "u1" 0) 5).1
      = ⟨1, [(mkInsert "c5" 0 "a".toList "u1" 0, 1)]⟩ ∧
    (SocketHandler.operationSend true ⟨0, []⟩ "task" "1"
        (mkInsert "c5" 0 "a".toList "u1" 0) 5).2
      = [.broadcastToRoom "task:1" (mkInsert "c5" 0 "a".toList "u1" 0) 1,
         .ackToSender "c5" 1] := by
  constructor
  · rfl
  · rfl

/-- C5 amended: the gateway has no `VersionMismatch` rejection. A valid
submission whose clientVersion is strictly greater than the current
version is transformed against the empty list of intervening operations
(hence unchanged), applied — incrementing the version and storing a row —
and answered with a room broadcast plus an ack to the sender. -/
theorem C5_amended_ahead_version_applied (st : SocketHandler.GatewayState)
    (ety eid : String) (op : Operation) (v : Nat)
    (h1 : ety ≠ "") (h2 : eid ≠ "")
    (h3 : SocketHandler.validateOperation op = true)
    (h4 : st.version < v) :
    (SocketHandler.operationSend true st ety eid op v).1.version
        = st.version + 1 ∧
    (SocketHandler.operationSend true st ety eid op v).1.storedOps
        = st.storedOps ++ [(op, st.version + 1)] ∧
    (SocketHandler.operationSend true st ety eid op v).2
        = [.broadcastToRoom (ety ++ ":" ++ eid) op (st.version + 1),
           .ackToSender op.id (st.version + 1)] := by
  have h4' : v ≠ st.version := by omega
  simp [SocketHandler.operationSend, SocketHandler.getCurrentVersion,
    SocketHandler.applyOperation, SocketHandler.transformOperation,
    SocketHandler.getOperationsBetweenVersions, h1, h2, h3, h4']

/-- Witness for C5's amended theorem at a concrete ahead-of-authority
submission. -/
theorem C5_amended_ahead_version_applied_witness :
    (SocketHandler.operationSend true ⟨2, []⟩ "task" "9"
        (mkInsert "w5" 1 "b".toList "u2" 7) 6).1.version = 3 :=
  (C5_amended_ahead_version_applied ⟨2, []⟩ "task" "9"
    (mkInsert "w5" 1 "b".toList "u2" 7) 6
    (by decide) (by decide) (by decide) (by decide)).1

/-- C6 counterexample: submitting the same operation (same
`Operation.id`, a client retry after a lost ack) twice is applied twice —
the version rises to 2 and two rows are stored, not "exactly one applied
change and one version increment". -/
theorem C6_counterexample_duplicate_applied_twice :
    ((SocketHandler.operationSend true
        (SocketHandler.operationSend true ⟨0, []⟩ "task" "1"
          (mkInsert "dup" 0 "a".toList "u1" 0) 0).1
        "task" "1" (mkInsert "dup" 0 "a".toList "u1" 0) 0).1).version = 2 ∧
    ((SocketHandler.operationSend true
        (SocketHandler.operationSend true ⟨0, []⟩ "task" "1"
          (mkInsert "dup" 0 "a".toList "u1" 0) 0).1
        "task" "1" (mkInsert "dup" 0 "a".toList "u1" 0) 0).1).storedOps.length
      = 2 := by
  constructor
  · rfl
  · rfl

/-- C6 amended: the authority performs no deduplication by
`Operation.id` — every valid submission, including a re-submission of an
id that is already stored, is applied and increments the version, so two
submissions of the same operation yield two version increments. -/
theorem C6_amended_no_dedup (st : SocketHandler.GatewayState)
    (ety eid : String) (op : Operation) (v w : Nat)
    (h1 : ety ≠ "") (h2 : eid ≠ "")
    (h3 : SocketHandler.validateOperation op = true) :
    (SocketHandler.operationSend true st ety eid op v).1.version
        = st.version + 1 ∧
    (SocketHandler.operationSend true st ety eid op v).1.storedOps.length
        = st.storedOps.length + 1 ∧
    (SocketHandler.operationSend true
        (SocketHandler.operationSend true st ety eid op v).1
        ety eid op w).1.version
      = st.version + 2 := by
  have step : ∀ (s : SocketHandler.GatewayState) (u : Nat),
      (SocketHandler.operationSend true s ety eid op u).1.version
          = s.version + 1 ∧
      (SocketHandler.operationSend true s ety eid op u).1.storedOps.length
          = s.storedOps.length + 1 := by
    intro s u
    by_cases hu : u = s.version <;>
      simp [SocketHandler.operationSend, SocketHandler.getCurrentVersion,
        SocketHandler.applyOperation, SocketHandler.transformOperation,
        SocketHandler.getOperationsBetweenVersions, h1, h2, h3, hu]
  refine ⟨(step st v).1, (step st v).2, ?_⟩
  rw [(step _ w).1, (step st v).1]

/-- Witness for C6's amended theorem: a concrete duplicate submission
yields two increments. -/
theorem C6_amended_no_dedup_witness :
    (SocketHandler.operationSend true
        (SocketHandler.operationSend true ⟨0, []⟩ "task" "2"
          (mkInsert "w6" 0 "c".toList "u1" 3) 0).1
        "task" "2" (mkInsert "w6" 0 "c".toList "u1" 3) 0).1.version = 2 :=
  (C6_amended_no_dedup ⟨0, []⟩ "task" "2" (mkInsert "w6" 0 "c".toList "u1" 3)
    0 0 (by decide) (by decide) (by decide)).2.2

/-- C7 counterexample: when the persistence step throws, the submitting
caller gets the error (`none` — the gateway's catch then emits a
sender-only error), but the entity state does NOT equal its state before
the submission: the version was already incremented and the operation
pushed, so apply is not all-or-nothing. -/
theorem C7_counterexample_state_mutated_on_failure :
    (OperationalTransformService.applyOperation false
        (OperationalTransformService.initializeDocument "abc".toList)
        (mkInsert "c7" 1 "Z".toList "u1" 0)).2 = none ∧
    (OperationalTransformService.applyOperation false
        (OperationalTransformService.initializeDocument "abc".toList)
        (mkInsert "c7" 1 "Z".toList "u1" 0)).1
      ≠ OperationalTransformService.initializeDocument "abc".toList := by
  constructor
  · rfl
  · decide

/-- C7 amended: a persistence failure is reported only to the caller —
the service returns no result (so the gateway's catch emits a
sender-only error and nothing is broadcast) and the gateway emits
exactly one `errorToSender` — but the state is not rolled back: the
service keeps the updated content, incremented version and extended
history, and the gateway's cached version was already bumped (with no
row stored). -/
theorem C7_amended_error_local_but_state_mutated
    (doc : OperationalTransformService.DocumentState) (op : Operation)
    (st : SocketHandler.GatewayState) (ety eid : String) (v : Nat)
    (h1 : ety ≠ "") (h2 : eid ≠ "")
    (h3 : SocketHandler.validateOperation op = true) :
    (OperationalTransformService.applyOperation false doc op).2 = none ∧
    (OperationalTransformService.applyOperation false doc op).1.version
        = doc.version + 1 ∧
    (OperationalTransformService.applyOperation false doc op).1.operations
        = doc.operations
            ++ [OperationalTransformService.transformOperation op doc] ∧
    (OperationalTransformService.applyOperation false doc op).1.content
        = OperationalTransformService.applyToContent doc.content
            (OperationalTransformService.transformOperation op doc) ∧
    (SocketHandler.operationSend false st ety eid op v).2
        = [.errorToSender op.id "Failed to process operation"] ∧
    (SocketHandler.operationSend false st ety eid op v).1.version
        = st.version + 1 ∧
    (SocketHandler.operationSend false st ety eid op v).1.storedOps
        = st.storedOps := by
  refine ⟨rfl, rfl, rfl, rfl, ?_, ?_, ?_⟩ <;>
    by_cases hv : v = st.version <;>
      simp [SocketHandler.operationSend, SocketHandler.getCurrentVersion,
        SocketHandler.applyOperation, h1, h2, h3, hv]

/-- Witness for C7's amended theorem at a concrete failing submission. -/
theorem C7_amended_error_local_but_state_mutated_witness :
    (SocketHandler.operationSend false ⟨0, []⟩ "task" "3"
        (mkInsert "w7" 0 "d".toList "u1" 0) 0).2
      = [.errorToSender "w7" "Failed to process operation"] :=
  (C7_amended_error_local_but_state_mutated
    (OperationalTransformService.initializeDocument [])
    (mkInsert "w7" 0 "d".toList "u1" 0) ⟨0, []⟩ "task" "3" 0
    (by decide) (by decide) (by decide)).2.2.2.2.1

/-- No entry under `key` survives `mapDelete m key`. -/
theorem mapDelete_not_mem (m : PresenceService.PresenceMap) (key : String)
    (q : PresenceService.Presence) :
    (key, q) ∉ PresenceService.mapDelete m key := by
  simp [PresenceService.mapDelete, List.mem_filter]

/-- `mapDelete` only removes entries. -/
theorem mapDelete_mem_of_mem {m : PresenceService.PresenceMap} {key k : String}
    {q : PresenceService.Presence}
    (h : (k, q) ∈ PresenceService.mapDelete m key) : (k, q) ∈ m := by
  simp only [PresenceService.mapDelete, List.mem_filter] at h
  exact h.1

/-- The cleanup loop only appends to the emitted-events list. -/
theorem cleanupStep_events_mono (now : Int)
    (acc : PresenceService.PresenceMap × List PresenceService.PresenceEvent)
    (kv : String × PresenceService.Presence) {e : PresenceService.PresenceEvent}
    (h : e ∈ acc.2) : e ∈ (PresenceService.cleanupStep now acc kv).2 := by
  unfold PresenceService.cleanupStep
  split
  · simp [PresenceService.removePresence, h]
  · exact h

theorem foldl_cleanupStep_events_mono (l : PresenceService.PresenceMap)
    (now : Int)
    (acc : PresenceService.PresenceMap × List PresenceService.PresenceEvent)
    {e : PresenceService.PresenceEvent} (h : e ∈ acc.2) :
    e ∈ (l.foldl (PresenceService.cleanupStep now) acc).2 := by
  induction l generalizing acc with
  | nil => exact h
  | cons kv rest ih =>
      exact ih _ (cleanupStep_events_mono now acc kv h)

/-- The cleanup loop never inserts entries: a key absent from the
accumulator map stays absent. -/
theorem cleanupStep_not_mem (now : Int)
    (acc : PresenceService.PresenceMap × List PresenceService.PresenceEvent)
    (kv : String × PresenceService.Presence) (key : String)
    (h : ∀ q, (key, q) ∉ acc.1) :
    ∀ q, (key, q) ∉ (PresenceService.cleanupStep now acc kv).1 := by
  intro q hq
  unfold PresenceService.cleanupStep at hq
  split at hq
  · simp only [PresenceService.removePresence] at hq
    exact h q (mapDelete_mem_of_mem (mapDelete_mem_of_mem hq))
  · exact h q hq

theorem foldl_cleanupStep_not_mem (l : PresenceService.PresenceMap)
    (now : Int)
    (acc : PresenceService.PresenceMap × List PresenceService.PresenceEvent)
    (key : String) (h : ∀ q, (key, q) ∉ acc.1) :
    ∀ q, (key, q) ∉ (l.foldl (PresenceService.cleanupStep now) acc).1 := by
  induction l generalizing acc with
  | nil => exact h
  | cons kv rest ih =>
      exact ih _ (cleanupStep_not_mem now acc kv key h)

/-- Any expired entry of the iterated list is removed from the threaded
map and its removal broadcast is emitted. -/
theorem cleanup_aux (now : Int) (l : PresenceService.PresenceMap)
    (acc : PresenceService.PresenceMap × List PresenceService.PresenceEvent)
    (key : String) (p : PresenceService.Presence)
    (hmem : (key, p) ∈ l)
    (hexp : now - p.lastSeen > PresenceService.inactiveThreshold) :
    PresenceService.broadcastPresenceRemoval p.userId p.entityType p.entityId
        ∈ (l.foldl (PresenceService.cleanupStep now) acc).2 ∧
    ∀ q, (key, q) ∉ (l.foldl (PresenceService.cleanupStep now) acc).1 := by
  induction l generalizing acc with
  | nil => cases hmem
  | cons kv rest ih =>
      rcases List.mem_cons.mp hmem with heq | hrest
      · subst heq
        rw [List.foldl_cons]
        constructor
        · apply foldl_cleanupStep_events_mono
          simp [PresenceService.cleanupStep, PresenceService.removePresence,
            hexp]
        · apply foldl_cleanupStep_not_mem
          intro q hq
          simp only [PresenceService.cleanupStep, if_pos hexp,
            PresenceService.removePresence] at hq
          exact mapDelete_not_mem _ _ _
            (mapDelete_mem_of_mem hq)
      · rw [List.foldl_cons]
        exact ih (PresenceService.cleanupStep now acc kv) hrest

/-- C9: every presence entry whose `lastSeen` is more than the 5-minute
TTL before the sweep time is deleted by `cleanupInactivePresences`, and
the sweep emits to the entity room the exact removal broadcast that an
explicit leave (`removePresence`) emits — with no explicit leave
required. -/
theorem C9_presence_expiry (m : PresenceService.PresenceMap) (now : Int)
    (key : String) (p : PresenceService.Presence)
    (hmem : (key, p) ∈ m)
    (hexp : now - p.lastSeen > PresenceService.inactiveThreshold) :
    PresenceService.broadcastPresenceRemoval p.userId p.entityType p.entityId
        ∈ (PresenceService.cleanupInactivePresences m now).2 ∧
    (∀ q, (key, q) ∉ (PresenceService.cleanupInactivePresences m now).1) ∧
    (∀ m0 : PresenceService.PresenceMap,
      (PresenceService.removePresence m0 p.userId p.entityType p.entityId).2
        = [PresenceService.broadcastPresenceRemoval p.userId p.entityType
            p.entityId]) := by
  have h := cleanup_aux now m (m, []) key p hmem hexp
  exact ⟨h.1, h.2, fun m0 => rfl⟩

/-- Witness for C9 at a concrete expired entry. -/
theorem C9_presence_expiry_witness :
    PresenceService.broadcastPresenceRemoval "u1" "task" "1"
        ∈ (PresenceService.cleanupInactivePresences
            [("u1:task:1", ⟨"u1", "task", "1", "viewing", 0⟩)] 300001).2 :=
  (C9_presence_expiry [("u1:task:1", ⟨"u1", "task", "1", "viewing", 0⟩)]
    300001 "u1:task:1" ⟨"u1", "task", "1", "viewing", 0⟩
    (by decide) (by decide)).1

/-- C2 counterexample: two inserts at the same position (1) from
different authors ("u1" at client time 5, "u2" at client time 6) do NOT
produce the same final content regardless of arrival order: receiving
u1's insert first yields "ayxb", receiving u2's first yields "axyb". No
`(clientTimestamp, authorId)` tie-break exists in the transform. -/
theorem C2_counterexample_order_dependent :
    OperationalTransformService.applyToContent
        (OperationalTransformService.applyToContent "ab".toList
          (mkInsert "cx" 1 "x".toList "u1" 5))
        (OperationalTransformService.transform
          (mkInsert "cy" 1 "y".toList "u2" 6)
          (mkInsert "cx" 1 "x".toList "u1" 5))
      ≠
      OperationalTransformService.applyToContent
        (OperationalTransformService.applyToContent "ab".toList
          (mkInsert "cy" 1 "y".toList "u2" 6))
        (OperationalTransformService.transform
          (mkInsert "cx" 1 "x".toList "u1" 5)
          (mkInsert "cy" 1 "y".toList "u2" 6)) := by
  decide

/-- C2 amended: the transform has no tie-break at equal positions — an
insert transformed against another insert at the same position is
returned unchanged whatever the two operations' timestamps and authors
are (in both the service transform and the gateway transform), so the
outcome depends on the order in which the server receives the two
inserts. -/
theorem C2_amended_no_tiebreak (op1 op2 : Operation)
    (h : op1.position = op2.position) :
    OperationalTransformService.transformInsertInsert op1 op2 = op1 ∧
    (op1.type = .insert → op2.type = .insert →
      SocketHandler.transformAgainstOperation op1 op2 = op1) := by
  constructor
  · unfold OperationalTransformService.transformInsertInsert
    rw [if_pos (le_of_eq h)]
  · intro h1 h2
    unfold SocketHandler.transformAgainstOperation
    rw [if_pos ⟨h1, h2⟩, if_pos (le_of_eq h)]

/-- Witness for C2's amended theorem at two concrete same-position
inserts with distinct timestamps and authors. -/
theorem C2_amended_no_tiebreak_witness :
    OperationalTransformService.transformInsertInsert
        (mkInsert "w2a" 3 "p".toList "u1" 1)
        (mkInsert "w2b" 3 "q".toList "u2" 2)
      = mkInsert "w2a" 3 "p".toList "u1" 1 :=
  (C2_amended_no_tiebreak (mkInsert "w2a" 3 "p".toList "u1" 1)
    (mkInsert "w2b" 3 "q".toList "u2" 2) (by decide)).1

/-- C3: the delete/insert transform is buggy where the insertion falls
strictly inside the deleted range. For A = delete(pos 1, len 3) against
B = insert(pos 2, "xy") (valid concurrently on base "abcd"), the claim
(and the spec's documented policy) requires the delete to grow to
length 3 + 2 = 5; the code instead sets
`length := A.position - B.position = -1`, a negative length that the
code's own `validateOperation` rejects. -/
theorem C3_code_bug_negative_length :
    OperationalTransformService.transform (mkDelete "a3" 1 3 "u1" 0)
        (mkInsert "b3" 2 "xy".toList "u2" 0)
      = { mkDelete "a3" 1 3 "u1" 0 with length := -1 } ∧
    SocketHandler.validateOperation
        (OperationalTransformService.transform (mkDelete "a3" 1 3 "u1" 0)
          (mkInsert "b3" 2 "xy".toList "u2" 0)) = false ∧
    (OperationalTransformService.transform (mkDelete "a3" 1 3 "u1" 0)
        (mkInsert "b3" 2 "xy".toList "u2" 0)).length ≠ 3 + 2 := by
  refine ⟨by decide, by decide, by decide⟩

/-- C4 counterexample: for A = delete(pos 2, len 3) and B =
delete(pos 1, len 2) — partially overlapping, B starting before A — the
code leaves A's position at 2 unchanged, while the claim's shift rule
(`A.position -= min(B.length, B.position+B.length-A.position)`) demands
position 1: the transform never shifts the position of overlapping
deletes. -/
theorem C4_counterexample_no_position_shift :
    (mkDelete "b4" 1 2 "uB" 0).position
        < (mkDelete "a4" 2 3 "uA" 0).position ∧
    (OperationalTransformService.transformDeleteDelete
        (mkDelete "a4" 2 3 "uA" 0) (mkDelete "b4" 1 2 "uB" 0)).position
      = 2 ∧
    (mkDelete "a4" 2 3 "uA" 0).position
        - min (mkDelete "b4" 1 2 "uB" 0).length
            ((mkDelete "b4" 1 2 "uB" 0).position
              + (mkDelete "b4" 1 2 "uB" 0).length
              - (mkDelete "a4" 2 3 "uA" 0).position)
      = 1 := by
  refine ⟨by decide, by decide, by decide⟩

/-- C4 amended: `transformDeleteDelete` subtracts the (clamped) interval
overlap from A's length in every case, and a delete fully contained in
the other becomes a zero-length no-op; but A's position shifts left (by
B's full length) only when B lies entirely at or before A's start
(`A.position ≥ B.position + B.length`) and is left unchanged in every
overlapping case. Scenario B holds: on "abcdef" with A = delete(1,3)
applied first, B = delete(2,2) transforms to length 0 and leaves "aef"
unchanged. -/
theorem C4_amended_delete_delete_transform (a b : Operation)
    (ha : 0 < a.length) (hb : 0 < b.length) :
    ((OperationalTransformService.transformDeleteDelete a b).length
        = a.length
          - max 0 (min (a.position + a.length) (b.position + b.length)
              - max a.position b.position)) ∧
    ((OperationalTransformService.transformDeleteDelete a b).position
        = if b.position + b.length ≤ a.position then a.position - b.length
          else a.position) ∧
    (b.position ≤ a.position →
      a.position + a.length ≤ b.position + b.length →
      (OperationalTransformService.transformDeleteDelete a b).length = 0) ∧
    (OperationalTransformService.transformDeleteDelete
        (mkDelete "b4s" 2 2 "uB" 0) (mkDelete "a4s" 1 3 "uA" 0)).length
      = 0 ∧
    OperationalTransformService.applyToContent "aef".toList
        (OperationalTransformService.transformDeleteDelete
          (mkDelete "b4s" 2 2 "uB" 0) (mkDelete "a4s" 1 3 "uA" 0))
      = "aef".toList := by
  refine ⟨?_, ?_, ?_, by decide, by decide⟩
  · unfold OperationalTransformService.transformDeleteDelete
    dsimp only
    split_ifs <;> (try dsimp only) <;> omega
  · unfold OperationalTransformService.transformDeleteDelete
    dsimp only
    split_ifs <;> (try dsimp only) <;> omega
  · intro hc1 hc2
    unfold OperationalTransformService.transformDeleteDelete
    dsimp only
    split_ifs <;> (try dsimp only) <;> omega

/-- Witness for C4's amended theorem at two concrete overlapping
deletes. -/
theorem C4_amended_delete_delete_transform_witness :
    (OperationalTransformService.transformDeleteDelete
        (mkDelete "w4a" 2 3 "uA" 0) (mkDelete "w4b" 1 2 "uB" 0)).length
      = 3 - max 0 (min (2 + 3) (1 + 2) - max 2 1) :=
  (C4_amended_delete_delete_transform (mkDelete "w4a" 2 3 "uA" 0)
    (mkDelete "w4b" 1 2 "uB" 0) (by decide) (by decide)).1

/-- Bridge with an explicit normal-form position. -/
theorem applyToContent_insert_eq (c : List Char) (op : Operation) (p : Nat)
    (ht : op.type = .insert) (hp : 0 ≤ op.position)
    (hpn : op.position.toNat = p) :
    OperationalTransformService.applyToContent c op
      = insertAt p op.content c := by
  rw [applyToContent_insert c op ht hp, hpn]

/-- Bridge with explicit normal-form position and length. -/
theorem applyToContent_delete_eq (c : List Char) (op : Operation) (p l : Nat)
    (ht : op.type = .delete) (hp : 0 ≤ op.position) (hl : 0 ≤ op.length)
    (hpn : op.position.toNat = p) (hln : op.length.toNat = l) :
    OperationalTransformService.applyToContent c op
      = deleteAt p l c := by
  rw [applyToContent_delete c op ht hp hl, hpn, hln]


/-- Convergence, directed insert/insert case: the insert at the strictly
smaller position applied first, the other transformed. -/
theorem conv_ins_ins (base : List Char) (x y : Operation)
    (hxt : x.type = .insert) (hyt : y.type = .insert)
    (hx0 : 0 ≤ x.position) (hyb : y.position ≤ (base.length : Int))
    (hlt : x.position < y.position) :
    OperationalTransformService.applyToContent
        (OperationalTransformService.applyToContent base x)
        (OperationalTransformService.transform y x)
      = OperationalTransformService.applyToContent
        (OperationalTransformService.applyToContent base y)
        (OperationalTransformService.transform x y) := by
  have hy0 : 0 ≤ y.position := by omega
  have htyx : OperationalTransformService.transform y x
      = { y with position := y.position + (x.content.length : Int) } := by
    unfold OperationalTransformService.transform
      OperationalTransformService.transformInsertInsert
    rw [if_pos ⟨hyt, hxt⟩, if_neg (by omega)]
  have htxy : OperationalTransformService.transform x y = x := by
    unfold OperationalTransformService.transform
      OperationalTransformService.transformInsertInsert
    rw [if_pos ⟨hxt, hyt⟩, if_pos (by omega)]
  rw [htyx, htxy]
  rw [applyToContent_insert_eq base x x.position.toNat hxt hx0 rfl]
  rw [applyToContent_insert_eq (insertAt x.position.toNat x.content base)
    { y with position := y.position + (x.content.length : Int) }
    (y.position.toNat + x.content.length) hyt
    (show (0:Int) ≤ y.position + (x.content.length : Int) by omega)
    (show (y.position + (x.content.length : Int)).toNat
        = y.position.toNat + x.content.length by omega)]
  rw [applyToContent_insert_eq base y y.position.toNat hyt hy0 rfl]
  rw [applyToContent_insert_eq (insertAt y.position.toNat y.content base) x
    x.position.toNat hxt hx0 rfl]
  exact insertAt_insertAt_comm base x.content y.content x.position.toNat
    y.position.toNat (by omega) (by omega)

/-- Convergence, insert/delete case with the insert position not
strictly inside the deleted span. -/
theorem conv_ins_del (base : List Char) (x y : Operation)
    (hxt : x.type = .insert) (hyt : y.type = .delete)
    (hx0 : 0 ≤ x.position) (hxb : x.position ≤ (base.length : Int))
    (hy0 : 0 ≤ y.position) (hyl : 0 < y.length)
    (hyb : y.position + y.length ≤ (base.length : Int))
    (hside : x.position ≤ y.position ∨ y.position + y.length ≤ x.position) :
    OperationalTransformService.applyToContent
        (OperationalTransformService.applyToContent base x)
        (OperationalTransformService.transform y x)
      = OperationalTransformService.applyToContent
        (OperationalTransformService.applyToContent base y)
        (OperationalTransformService.transform x y) := by
  rcases hside with hxy | hyx
  · have htyx : OperationalTransformService.transform y x
        = { y with position := y.position + (x.content.length : Int) } := by
      unfold OperationalTransformService.transform
        OperationalTransformService.transformDeleteInsert
      rw [if_neg (by simp [hyt]), if_neg (by simp [hyt]), if_pos ⟨hyt, hxt⟩,
        if_neg (by omega), if_pos (by omega)]
    have htxy : OperationalTransformService.transform x y = x := by
      unfold OperationalTransformService.transform
        OperationalTransformService.transformInsertDelete
      rw [if_neg (by simp [hyt]), if_pos ⟨hxt, hyt⟩, if_pos (by omega)]
    rw [htyx, htxy]
    rw [applyToContent_insert_eq base x x.position.toNat hxt hx0 rfl]
    rw [applyToContent_delete_eq (insertAt x.position.toNat x.content base)
      { y with position := y.position + (x.content.length : Int) }
      (y.position.toNat + x.content.length) y.length.toNat hyt
      (show (0:Int) ≤ y.position + (x.content.length : Int) by omega)
      (show (0:Int) ≤ y.length by omega)
      (show (y.position + (x.content.length : Int)).toNat
          = y.position.toNat + x.content.length by omega) rfl]
    rw [applyToContent_delete_eq base y y.position.toNat y.length.toNat hyt
      hy0 (by omega) rfl rfl]
    rw [applyToContent_insert_eq
      (deleteAt y.position.toNat y.length.toNat base) x x.position.toNat hxt
      hx0 rfl]
    exact deleteAt_insertAt_low base x.content x.position.toNat
      y.position.toNat y.length.toNat (by omega) (by omega)
  · have htyx : OperationalTransformService.transform y x = y := by
      unfold OperationalTransformService.transform
        OperationalTransformService.transformDeleteInsert
      rw [if_neg (by simp [hyt]), if_neg (by simp [hyt]), if_pos ⟨hyt, hxt⟩,
        if_pos (by omega)]
    have htxy : OperationalTransformService.transform x y
        = { x with position := x.position - y.length } := by
      unfold OperationalTransformService.transform
        OperationalTransformService.transformInsertDelete
      rw [if_neg (by simp [hyt]), if_pos ⟨hxt, hyt⟩, if_neg (by omega),
        if_pos (by omega)]
    rw [htyx, htxy]
    rw [applyToContent_insert_eq base x x.position.toNat hxt hx0 rfl]
    rw [applyToContent_delete_eq (insertAt x.position.toNat x.content base) y
      y.position.toNat y.length.toNat hyt hy0 (by omega) rfl rfl]
    rw [applyToContent_delete_eq base y y.position.toNat y.length.toNat hyt
      hy0 (by omega) rfl rfl]
    rw [applyToContent_insert_eq
      (deleteAt y.position.toNat y.length.toNat base)
      { x with position := x.position - y.length }
      (x.position.toNat - y.length.toNat) hxt
      (show (0:Int) ≤ x.position - y.length by omega)
      (show (x.position - y.length).toNat
          = x.position.toNat - y.length.toNat by omega)]
    exact deleteAt_insertAt_high base x.content x.position.toNat
      y.position.toNat y.length.toNat (by omega) (by omega)

/-- Convergence, directed delete/delete case for disjoint spans: `x`'s
span lies entirely before `y`'s. -/
theorem conv_dd_before (base : List Char) (x y : Operation)
    (hxt : x.type = .delete) (hyt : y.type = .delete)
    (hx0 : 0 ≤ x.position) (hxl : 0 < x.length)
    (hy0 : 0 ≤ y.position) (hyl : 0 < y.length)
    (hyb : y.position + y.length ≤ (base.length : Int))
    (hbefore : x.position + x.length ≤ y.position) :
    OperationalTransformService.applyToContent
        (OperationalTransformService.applyToContent base x)
        (OperationalTransformService.transform y x)
      = OperationalTransformService.applyToContent
        (OperationalTransformService.applyToContent base y)
        (OperationalTransformService.transform x y) := by
  have htyx : OperationalTransformService.transform y x
      = { y with position := y.position - x.length } := by
    unfold OperationalTransformService.transform
      OperationalTransformService.transformDeleteDelete
    rw [if_neg (by simp [hyt]), if_neg (by simp [hyt]),
      if_neg (by simp [hxt]), if_pos ⟨hyt, hxt⟩, if_neg (by omega),
      if_pos (by omega)]
  have htxy : OperationalTransformService.transform x y = x := by
    unfold OperationalTransformService.transform
      OperationalTransformService.transformDeleteDelete
    rw [if_neg (by simp [hxt]), if_neg (by simp [hxt]),
      if_neg (by simp [hyt]), if_pos ⟨hxt, hyt⟩, if_pos (by omega)]
  rw [htyx, htxy]
  rw [applyToContent_delete_eq base x x.position.toNat x.length.toNat hxt hx0
    (by omega) rfl rfl]
  rw [applyToContent_delete_eq
    (deleteAt x.position.toNat x.length.toNat base)
    { y with position := y.position - x.length }
    (y.position.toNat - x.length.toNat) y.length.toNat hyt
    (show (0:Int) ≤ y.position - x.length by omega)
    (show (0:Int) ≤ y.length by omega)
    (show (y.position - x.length).toNat
        = y.position.toNat - x.length.toNat by omega) rfl]
  rw [applyToContent_delete_eq base y y.position.toNat y.length.toNat hyt hy0
    (by omega) rfl rfl]
  rw [applyToContent_delete_eq
    (deleteAt y.position.toNat y.length.toNat base) x x.position.toNat
    x.length.toNat hxt hx0 (by omega) rfl rfl]
  exact deleteAt_deleteAt_disjoint base x.position.toNat x.length.toNat
    y.position.toNat y.length.toNat (by omega) (by omega)

/-- Convergence, directed delete/delete case for nested spans: `x`'s
span contains `y`'s. -/
theorem conv_dd_contains (base : List Char) (x y : Operation)
    (hxt : x.type = .delete) (hyt : y.type = .delete)
    (hx0 : 0 ≤ x.position) (hxl : 0 < x.length)
    (hy0 : 0 ≤ y.position) (hyl : 0 < y.length)
    (hxb : x.position + x.length ≤ (base.length : Int))
    (hs : x.position ≤ y.position)
    (he : y.position + y.length ≤ x.position + x.length) :
    OperationalTransformService.applyToContent
        (OperationalTransformService.applyToContent base x)
        (OperationalTransformService.transform y x)
      = OperationalTransformService.applyToContent
        (OperationalTransformService.applyToContent base y)
        (OperationalTransformService.transform x y) := by
  have hll : y.length ≤ x.length := by omega
  have htyx : OperationalTransformService.transform y x
      = { y with length := 0 } := by
    unfold OperationalTransformService.transform
      OperationalTransformService.transformDeleteDelete
    rw [if_neg (by simp [hyt]), if_neg (by simp [hyt]),
      if_neg (by simp [hxt]), if_pos ⟨hyt, hxt⟩]
    dsimp only
    split_ifs with h1 h2 h3 h4
    · exact absurd h1 (by omega)
    · exact absurd h2 (by omega)
    · rw [show y.length - x.length = (0:Int) by omega]
    · rfl
    · exact absurd ⟨by omega, by omega⟩ h4
  have htxy : OperationalTransformService.transform x y
      = { x with length := x.length - y.length } := by
    unfold OperationalTransformService.transform
      OperationalTransformService.transformDeleteDelete
    rw [if_neg (by simp [hxt]), if_neg (by simp [hxt]),
      if_neg (by simp [hyt]), if_pos ⟨hxt, hyt⟩]
    dsimp only
    split_ifs with h1 h2 h3
    · exact absurd h1 (by omega)
    · exact absurd h2 (by omega)
    · rfl
    · exact absurd ⟨by omega, by omega⟩ h3
    · exact absurd ⟨by omega, by omega⟩ h3
  rw [htyx, htxy]
  rw [applyToContent_delete_eq base x x.position.toNat x.length.toNat hxt hx0
    (by omega) rfl rfl]
  rw [applyToContent_delete_eq
    (deleteAt x.position.toNat x.length.toNat base)
    { y with length := 0 } y.position.toNat 0 hyt hy0
    (show (0:Int) ≤ (0:Int) by omega) rfl rfl]
  rw [applyToContent_delete_eq base y y.position.toNat y.length.toNat hyt hy0
    (by omega) rfl rfl]
  rw [applyToContent_delete_eq
    (deleteAt y.position.toNat y.length.toNat base)
    { x with length := x.length - y.length } x.position.toNat
    (x.length.toNat - y.length.toNat) hxt hx0
    (show (0:Int) ≤ x.length - y.length by omega) rfl
    (show (x.length - y.length).toNat
        = x.length.toNat - y.length.toNat by omega)]
  rw [deleteAt_zero]
  exact (deleteAt_deleteAt_nested base x.position.toNat x.length.toNat
    y.position.toNat y.length.toNat (by omega) (by omega) (by omega)).symm

/-- C1 counterexample: the convergence identity fails for two valid
concurrent inserts at the same position. With base "" (both positions 0
valid), X = insert(0, "a") by uA and Y = insert(0, "b") by uB, one order
yields "ba" and the other "ab". -/
theorem C1_counterexample_equal_position_inserts :
    OperationalTransformService.applyToContent
        (OperationalTransformService.applyToContent []
          (mkInsert "xa" 0 "a".toList "uA" 0))
        (OperationalTransformService.transform
          (mkInsert "yb" 0 "b".toList "uB" 0)
          (mkInsert "xa" 0 "a".toList "uA" 0))
      ≠
      OperationalTransformService.applyToContent
        (OperationalTransformService.applyToContent []
          (mkInsert "yb" 0 "b".toList "uB" 0))
        (OperationalTransformService.transform
          (mkInsert "xa" 0 "a".toList "uA" 0)
          (mkInsert "yb" 0 "b".toList "uB" 0)) := by
  decide

/-- C1 amended: the convergence identity
`apply(apply(base,X), transform(Y,X)) = apply(apply(base,Y), transform(X,Y))`
holds for operations of kind insert/delete valid in the base exactly on
the non-conflicting configurations (`convergentPair`): inserts at
distinct positions; insert/delete pairs whose insert position is not
strictly inside the deleted span; delete/delete pairs with disjoint or
nested spans. (It fails at equal-position inserts, inserts strictly
inside a delete, and partially overlapping deletes.) -/
theorem C1_amended_convergence (base : List Char) (x y : Operation)
    (hx : validOn base x = true) (hy : validOn base y = true)
    (hc : convergentPair x y = true) :
    OperationalTransformService.applyToContent
        (OperationalTransformService.applyToContent base x)
        (OperationalTransformService.transform y x)
      = OperationalTransformService.applyToContent
        (OperationalTransformService.applyToContent base y)
        (OperationalTransformService.transform x y) := by
  cases hxt : x.type <;> cases hyt : y.type <;>
    simp only [validOn, convergentPair, hxt, hyt, decide_eq_true_eq]
      at hx hy hc <;>
    try exact absurd hc (by decide)
  case insert.insert =>
    rcases lt_or_gt_of_ne hc with h | h
    · exact conv_ins_ins base x y hxt hyt hx.1 hy.2 h
    · exact (conv_ins_ins base y x hyt hxt hy.1 hx.2 h).symm
  case insert.delete =>
    exact conv_ins_del base x y hxt hyt hx.1 hx.2 hy.1 hy.2.1 hy.2.2 hc
  case delete.insert =>
    exact (conv_ins_del base y x hyt hxt hy.1 hy.2 hx.1 hx.2.1 hx.2.2 hc).symm
  case delete.delete =>
    rcases hc with h | h | h | h
    · exact conv_dd_before base x y hxt hyt hx.1 hx.2.1 hy.1 hy.2.1 hy.2.2 h
    · exact (conv_dd_before base y x hyt hxt hy.1 hy.2.1 hx.1 hx.2.1
        hx.2.2 h).symm
    · exact conv_dd_contains base x y hxt hyt hx.1 hx.2.1 hy.1 hy.2.1
        hx.2.2 h.1 h.2
    · exact (conv_dd_contains base y x hyt hxt hy.1 hy.2.1 hx.1 hx.2.1
        hy.2.2 h.1 h.2).symm

/-- Witness for C1's amended theorem: a concrete valid insert/delete
pair on base "ab" converges. -/
theorem C1_amended_convergence_witness :
    OperationalTransformService.applyToContent
        (OperationalTransformService.applyToContent "ab".toList
          (mkInsert "wx" 0 "z".toList "u1" 0))
        (OperationalTransformService.transform
          (mkDelete "wy" 1 1 "u2" 0) (mkInsert "wx" 0 "z".toList "u1" 0))
      = OperationalTransformService.applyToContent
        (OperationalTransformService.applyToContent "ab".toList
          (mkDelete "wy" 1 1 "u2" 0))
        (OperationalTransformService.transform
          (mkInsert "wx" 0 "z".toList "u1" 0) (mkDelete "wy" 1 1 "u2" 0)) :=
  C1_amended_convergence "ab".toList (mkInsert "wx" 0 "z".toList "u1" 0)
    (mkDelete "wy" 1 1 "u2" 0) (by decide) (by decide) (by decide)
